import Mathlib

/-!
Shallow embedding of the schema-diff / SQL-synthesis core of the
Snowflake evolution assistant (`schema_utils.py`, `llm_utils.py`).

A Python `Dict[str, str]` is modelled as an association list
`List (String × String)` in insertion order; `dictInsert` models
`d[k] = v` (update in place if the key is present, else append),
which is exactly Python's dict insertion semantics, so dict
comprehensions become `filter` / `filterMap` over the association list.

String primitives that must evaluate inside the kernel (uppercasing,
substring containment, splitting into lines) are defined over the
character list `String.data`, because the corresponding `String`
library functions are compiled and do not reduce definitionally.
-/

namespace SnowflakeEvo

/-- Python `str.upper()` (ASCII letters, which is all the data model uses). -/
def strUpper (s : String) : String := String.mk (s.data.map Char.toUpper)

/-- Does `s` start with `pat`? (helper for substring containment). -/
def startsWithChars : List Char → List Char → Bool
  | _, [] => true
  | [], _ :: _ => false
  | c :: s, p :: ps => c == p && startsWithChars s ps

/-- Is `pat` a contiguous substring of `s`? (helper). -/
def containsChars (s pat : List Char) : Bool :=
  match s with
  | [] => pat.isEmpty
  | _ :: rest => startsWithChars s pat || containsChars rest pat

/-- Python `pat in s` on strings: contiguous substring containment. -/
def containsSubstr (s pat : String) : Bool := containsChars s.data pat.data

/-- The pattern occurs contiguously in `s` (the `Prop` mirror of
`containsChars`, convenient for reasoning about concatenations). -/
def occursIn (pat s : List Char) : Prop := ∃ l r, s = l ++ (pat ++ r)

/-- Split a character list at every newline character (helper). -/
def splitNl : List Char → List (List Char)
  | [] => [[]]
  | c :: rest =>
    match splitNl rest with
    | [] => [[]]
    | l :: ls => if c == '\n' then [] :: l :: ls else (c :: l) :: ls

/-- The lines of a string: split at every newline, `s.split("\n")`. -/
def linesOf (s : String) : List String := (splitNl s.data).map String.mk

/-- Python `"sep".join(l)`. -/
def joinWith (sep : String) : List String → String
  | [] => ""
  | [a] => a
  | a :: b :: rest => a ++ sep ++ joinWith sep (b :: rest)

/-- A schema: mapping from column name to type name, in insertion order. -/
abbrev Schema := List (String × String)

/-- The key list of a dict, in insertion order. -/
def keysOf (s : List (String × String)) : List String := s.map Prod.fst

/-- Python `k in d`. -/
def containsKey (s : List (String × String)) (k : String) : Bool :=
  s.any (fun kv => kv.1 == k)

/-- Python `d[k]` (as an `Option`; dicts in this model have unique keys). -/
def lookup (s : List (String × String)) (k : String) : Option String :=
  (s.find? (fun kv => kv.1 == k)).map Prod.snd

/-- Python `d[k] = v`: update the value in place if `k` is present,
otherwise append `(k, v)`. -/
def dictInsert (s : List (String × String)) (k v : String) : List (String × String) :=
  if containsKey s k then
    s.map (fun kv => if kv.1 == k then (k, v) else kv)
  else s ++ [(k, v)]

/-- `{k.upper(): v for k, v in s.items()}`: key normalization with
last-write-wins on collision (source `schema_utils.py`, lines 40–41). -/
def normalize (s : Schema) : Schema :=
  s.foldl (fun acc kv => dictInsert acc (strUpper kv.1) kv.2) []

/-- `compare_schemas(existing, new)` from `schema_utils.py`:
returns `(new_cols, missing_cols, conflicts)`. -/
def compare_schemas (existing new : Schema) :
    Schema × Schema × List (String × String × String) :=
  let e := normalize existing
  let n := normalize new
  let new_cols := n.filter (fun kv => !containsKey e kv.1)
  let missing_cols := e.filter (fun kv => !containsKey n kv.1)
  let conflicts := e.filterMap (fun kv =>
    match lookup n kv.1 with
    | some v2 => if kv.2 != v2 then some (kv.1, kv.2, v2) else none
    | none => none)
  (new_cols, missing_cols, conflicts)

/-- Lexicographic strict order on character lists (helper). -/
def charListLt : List Char → List Char → Bool
  | [], [] => false
  | [], _ :: _ => true
  | _ :: _, [] => false
  | a :: as, b :: bs => if a < b then true else if b < a then false else charListLt as bs

/-- Python `a < b` on strings (lexicographic by code point). -/
def strLtb (a b : String) : Bool := charListLt a.data b.data

/-- Python `(k, v) <= (k2, v2)` on pairs of strings: lexicographic
tuple comparison, as used by `sorted(s.items())`. -/
def pairLe (a b : String × String) : Bool :=
  strLtb a.1 b.1 || (a.1 == b.1 && (strLtb a.2 b.2 || a.2 == b.2))

/-- Insert into a sorted list (helper for modelling Python `sorted`). -/
def insertSorted (le : String × String → String × String → Bool)
    (a : String × String) : List (String × String) → List (String × String)
  | [] => [a]
  | b :: bs => if le a b then a :: b :: bs else b :: insertSorted le a bs

/-- Insertion sort (helper for modelling Python `sorted`). -/
def sortPairs (le : String × String → String × String → Bool) :
    List (String × String) → List (String × String)
  | [] => []
  | a :: as => insertSorted le a (sortPairs le as)

/-- `_format_schema(s)` from `schema_utils.py`: Python `sorted(s.items())`
sorts the pairs lexicographically (key first, then value). -/
def _format_schema (s : Schema) : String :=
  joinWith "\n" ((sortPairs pairLe s).map (fun kv => "- " ++ kv.1 ++ ": " ++ kv.2))

/-- The static message `explain_changes_with_ai` returns when the diff is
empty (source lines 61–63; the table name is interpolated into it). -/
def noChangesExplain (table_name : String) : String :=
  "✅ No schema changes detected for table `" ++ table_name ++ "`.  \n" ++
  "Both existing and candidate schemas are identical.  \n" ++
  "No risks, conflicts, or SQL migrations are required."

/-- The prompt `explain_changes_with_ai` builds for the LLM on a
non-empty diff (source lines 66–84). -/
def explainPrompt (existing new : Schema) (table_name : String) : String :=
  "\nYou are an expert Snowflake engineer. Compare the two table schemas and explain the changes clearly.\n\n" ++
  "Table: " ++ table_name ++ "\n\n" ++
  "Existing schema:\n" ++ _format_schema existing ++ "\n\n" ++
  "New schema (candidate):\n" ++ _format_schema new ++ "\n\n" ++
  "Describe:\n1) Added columns (with types)\n2) Removed or missing columns and their impact\n" ++
  "3) Data type conflicts and safe migration advice\n4) Risks (NULLability, backfills, ingestion issues)\n" ++
  "Keep it concise with bullet points.\n"

/-- `explain_changes_with_ai(existing, new, table_name)` from
`schema_utils.py`. The external text-generation capability
`llm_utils.chat_llm` is passed as an explicit oracle so that
"the LLM is not invoked" is expressible as independence from it. -/
def explain_changes_with_ai (chat : String → String)
    (existing new : Schema) (table_name : String) : String :=
  let d := compare_schemas existing new
  if d.1.isEmpty && d.2.1.isEmpty && d.2.2.isEmpty then
    noChangesExplain table_name
  else
    chat (explainPrompt existing new table_name)

/-- The `ALTER TABLE ... ADD COLUMN` line emitted for an added column
(source line 95). -/
def addStmt (table_name col dtype : String) : String :=
  "ALTER TABLE " ++ table_name ++ " ADD COLUMN " ++ col ++ " " ++ dtype ++ " NULL;"

/-- The advisory comment emitted for a removed column (source line 99). -/
def removeComment (col dtype : String) : String :=
  "-- NOTE: Column " ++ col ++ " (" ++ dtype ++
  ") exists in old schema but not in new. Drop only if intentional."

/-- The `ALTER TABLE ... ALTER COLUMN ... SET DATA TYPE` line emitted for a
type conflict; the target is the candidate (new) type (source line 103). -/
def conflictStmt (table_name col new_type : String) : String :=
  "ALTER TABLE " ++ table_name ++ " ALTER COLUMN " ++ col ++ " SET DATA TYPE " ++ new_type ++ ";"

/-- The `sql_statements` list built by `generate_sql_with_ai`: one loop per
category, in the fixed order added → removed-comments → conflicts. -/
def sqlStatements (existing new : Schema) (table_name : String) : List String :=
  let d := compare_schemas existing new
  d.1.map (fun kv => addStmt table_name kv.1 kv.2) ++
  d.2.1.map (fun kv => removeComment kv.1 kv.2) ++
  d.2.2.map (fun kvt => conflictStmt table_name kvt.1 kvt.2.2)

/-- The fixed text returned when no statements were produced (source line 107). -/
def noChangesSql : String := "-- No schema changes detected. No ALTER TABLE needed."

/-- `generate_sql_with_ai(existing, new, table_name)` from `schema_utils.py`. -/
def generate_sql_with_ai (existing new : Schema) (table_name : String) : String :=
  let stmts := sqlStatements existing new table_name
  if stmts.isEmpty then noChangesSql
  else joinWith "\n" stmts

/-- One column of a pandas DataFrame, as `infer_schema_from_df` sees it:
its name and the string rendering of its dtype. -/
structure DFColumn where
  name : String
  dtype : String
deriving DecidableEq

/-- The tabular input of `infer_schema_from_df`: the columns in order. -/
abbrev DataFrame := List DFColumn

/-- The dtype → canonical type dispatch inside `infer_schema_from_df`
(source lines 21–31): substring tests on `str(df[col].dtype)`,
first match wins. -/
def classifyDtype (dtype : String) : String :=
  if containsSubstr dtype "int" then "NUMBER"
  else if containsSubstr dtype "float" then "FLOAT"
  else if containsSubstr dtype "bool" then "BOOLEAN"
  else if containsSubstr dtype "datetime" || containsSubstr dtype "date" then "TIMESTAMP_NTZ"
  else "TEXT"

/-- `infer_schema_from_df(df)` from `schema_utils.py`: builds the schema
dict with `schema[col.upper()] = <canonical type>` for each column. -/
def infer_schema_from_df (df : DataFrame) : Schema :=
  df.foldl (fun schema col => dictInsert schema (strUpper col.name) (classifyDtype col.dtype)) []

/-- Configuration of `llm_utils`: `LLM_PROVIDER`, `LLM_ENDPOINT`,
`LLM_API_KEY` (empty string models an unset value, which is falsy). -/
structure LLMConfig where
  provider : String
  endpoint : String
  apiKey : String

/-- The JSON body of a Hugging Face response as `chat_llm` inspects it:
either a JSON array whose elements are string-valued objects, or any
other shape; `rendered` is Python's `str(data)` for the whole value. -/
inductive JsonData where
  | arr (elems : List (List (String × String))) (rendered : String)
  | other (rendered : String)

/-- An HTTP response from `requests.post`: status code, body text, and
the result of `resp.json()` (`Except.error` models a raised decode error). -/
structure HttpResult where
  statusCode : Nat
  text : String
  json : Except String JsonData

/-- `chat_llm(prompt)` from `llm_utils.py`. The two external calls are
oracles: `ollamaChat prompt` is the value of
`ollama.chat(...)["message"]["content"]` (or the exception that call
raises), `httpPost endpoint prompt` is the `requests.post` result (or the
exception it raises). The result is `Except.error e` when `chat_llm`
itself lets an exception `e` escape, `Except.ok s` when it returns the
string `s`. -/
def chat_llm (cfg : LLMConfig)
    (ollamaChat : String → Except String String)
    (httpPost : String → String → Except String HttpResult)
    (prompt : String) : Except String String :=
  if cfg.provider == "ollama" then
    ollamaChat prompt
  else if cfg.provider == "remote" then
    if cfg.endpoint == "" || cfg.apiKey == "" then
      Except.ok "❌ Hugging Face endpoint or API key not set."
    else
      match httpPost cfg.endpoint prompt with
      | Except.error e => Except.ok ("❌ Error calling Hugging Face API: " ++ e)
      | Except.ok resp =>
        if resp.statusCode != 200 then
          Except.ok ("❌ Hugging Face API error " ++ toString resp.statusCode ++ ": " ++ resp.text)
        else
          match resp.json with
          | Except.error e => Except.ok ("❌ Error calling Hugging Face API: " ++ e)
          | Except.ok (JsonData.arr [] _) =>
            Except.ok "❌ Error calling Hugging Face API: list index out of range"
          | Except.ok (JsonData.arr (d :: _) rendered) =>
            match lookup d "generated_text" with
            | some txt => Except.ok txt
            | none => Except.ok rendered
          | Except.ok (JsonData.other rendered) => Except.ok rendered
  else
    Except.ok "❌ Invalid LLM_PROVIDER. Use 'ollama' or 'remote'."

/-- Exactly one of four propositions holds. -/
def exactlyOne4 (p q r s : Prop) : Prop :=
  (p ∨ q ∨ r ∨ s) ∧ (p → ¬q ∧ ¬r ∧ ¬s) ∧ (q → ¬p ∧ ¬r ∧ ¬s) ∧
  (r → ¬p ∧ ¬q ∧ ¬s) ∧ (s → ¬p ∧ ¬q ∧ ¬r)

/-! ### Dictionary lemmas -/

theorem containsKey_iff (s : List (String × String)) (k : String) :
    containsKey s k = true ↔ k ∈ keysOf s := by
  simp only [containsKey, keysOf, List.any_eq_true, List.mem_map, beq_iff_eq]

theorem mem_keysOf_iff (s : List (String × String)) (k : String) :
    k ∈ keysOf s ↔ ∃ v, (k, v) ∈ s := by
  simp only [keysOf, List.mem_map]
  constructor
  · rintro ⟨⟨k', v⟩, hm, rfl⟩
    exact ⟨v, hm⟩
  · rintro ⟨v, hm⟩
    exact ⟨(k, v), hm, rfl⟩

theorem lookup_isSome_iff (s : List (String × String)) (k : String) :
    (lookup s k).isSome = true ↔ k ∈ keysOf s := by
  simp only [lookup, Option.isSome_map', List.find?_isSome, keysOf, List.mem_map, beq_iff_eq]

theorem lookup_eq_none_iff (s : List (String × String)) (k : String) :
    lookup s k = none ↔ k ∉ keysOf s := by
  rw [← lookup_isSome_iff, ← Option.not_isSome_iff_eq_none]

theorem mem_of_lookup_eq_some {s : List (String × String)} {k v : String}
    (h : lookup s k = some v) : (k, v) ∈ s := by
  simp only [lookup, Option.map_eq_some'] at h
  obtain ⟨kv, hf, hv⟩ := h
  have hm := List.mem_of_find?_eq_some hf
  have hk := List.find?_some hf
  simp only [beq_iff_eq] at hk
  obtain ⟨k', v'⟩ := kv
  simp only at hv hk
  subst hv hk
  exact hm

theorem lookup_eq_some_of_mem {s : List (String × String)} {k v : String}
    (hnd : (keysOf s).Nodup) (hm : (k, v) ∈ s) : lookup s k = some v := by
  induction s with
  | nil => cases hm
  | cons kv rest ih =>
    have hnd' : kv.1 ∉ keysOf rest ∧ (keysOf rest).Nodup := by
      simpa [keysOf, List.nodup_cons] using hnd
    rcases List.mem_cons.mp hm with heq | hmem
    · rw [← heq]
      simp [lookup]
    · have hne : kv.1 ≠ k := fun hc =>
        hnd'.1 (hc ▸ (mem_keysOf_iff rest k).mpr ⟨v, hmem⟩)
      simp only [lookup, List.find?]
      rw [show (kv.1 == k) = false from beq_eq_false_iff_ne.mpr hne]
      exact ih hnd'.2 hmem

theorem keysOf_dictInsert (s : List (String × String)) (k v : String) :
    keysOf (dictInsert s k v) =
      if containsKey s k then keysOf s else keysOf s ++ [k] := by
  unfold dictInsert
  split
  · simp only [keysOf, List.map_map]
    congr 1
    funext kv
    simp only [Function.comp_apply]
    by_cases h : kv.1 = k
    · rw [if_pos (by simpa using h)]
      exact h.symm
    · rw [if_neg (by simpa using h)]
  · simp [keysOf]

theorem nodup_keysOf_dictInsert {s : List (String × String)} (k v : String)
    (h : (keysOf s).Nodup) : (keysOf (dictInsert s k v)).Nodup := by
  rw [keysOf_dictInsert]
  split
  · exact h
  · rw [(List.perm_append_singleton k (keysOf s)).nodup_iff, List.nodup_cons]
    refine ⟨fun hc => ?_, h⟩
    exact absurd ((containsKey_iff s k).mpr hc) (by simp_all)

theorem nodup_keysOf_normalize (s : Schema) : (keysOf (normalize s)).Nodup := by
  have main : ∀ (l : Schema) (acc : Schema), (keysOf acc).Nodup →
      (keysOf (l.foldl (fun a kv => dictInsert a (strUpper kv.1) kv.2) acc)).Nodup := by
    intro l
    induction l with
    | nil => intro acc h; exact h
    | cons kv rest ih =>
      intro acc h
      exact ih _ (nodup_keysOf_dictInsert _ _ h)
  exact main s [] List.nodup_nil

/-! ### Characterizing the three diff components -/

theorem mem_keysOf_filterNot (s t : List (String × String)) (k : String) :
    k ∈ keysOf (s.filter (fun kv => !containsKey t kv.1)) ↔
      k ∈ keysOf s ∧ k ∉ keysOf t := by
  rw [mem_keysOf_iff]
  constructor
  · rintro ⟨v, hv⟩
    obtain ⟨hmem, hcond⟩ := List.mem_filter.mp hv
    refine ⟨(mem_keysOf_iff s k).mpr ⟨v, hmem⟩, fun hc => ?_⟩
    rw [Bool.not_eq_true'] at hcond
    rw [(containsKey_iff t k).mpr hc] at hcond
    cases hcond
  · rintro ⟨hks, hnt⟩
    obtain ⟨v, hv⟩ := (mem_keysOf_iff s k).mp hks
    refine ⟨v, List.mem_filter.mpr ⟨hv, ?_⟩⟩
    rw [Bool.not_eq_true', Bool.eq_false_iff]
    exact fun hc2 => hnt ((containsKey_iff t k).mp hc2)

theorem mem_keysOf_added (A B : Schema) (k : String) :
    k ∈ keysOf (compare_schemas A B).1 ↔
      k ∈ keysOf (normalize B) ∧ k ∉ keysOf (normalize A) := by
  have hview : (compare_schemas A B).1 =
      (normalize B).filter (fun kv => !containsKey (normalize A) kv.1) := rfl
  rw [hview, mem_keysOf_filterNot]

theorem mem_keysOf_removed (A B : Schema) (k : String) :
    k ∈ keysOf (compare_schemas A B).2.1 ↔
      k ∈ keysOf (normalize A) ∧ k ∉ keysOf (normalize B) := by
  have hview : (compare_schemas A B).2.1 =
      (normalize A).filter (fun kv => !containsKey (normalize B) kv.1) := rfl
  rw [hview, mem_keysOf_filterNot]

theorem mem_keysOf_conflicts (A B : Schema) (k : String) :
    k ∈ ((compare_schemas A B).2.2.map Prod.fst) ↔
      k ∈ keysOf (normalize A) ∧ k ∈ keysOf (normalize B) ∧
        lookup (normalize A) k ≠ lookup (normalize B) k := by
  have hview : (compare_schemas A B).2.2 = (normalize A).filterMap (fun kv =>
      match lookup (normalize B) kv.1 with
      | some v2 => if kv.2 != v2 then some (kv.1, kv.2, v2) else none
      | none => none) := rfl
  rw [hview]
  constructor
  · intro h
    obtain ⟨⟨k', vA, vB⟩, htm, hfst⟩ := List.mem_map.mp h
    obtain ⟨kv, hmA, hf⟩ := List.mem_filterMap.mp htm
    have hk' : k' = k := hfst
    subst k'
    rcases hlook : lookup (normalize B) kv.1 with _ | v2 <;> rw [hlook] at hf
    · have hf' : (none : Option (String × String × String)) = some (k, vA, vB) := hf
      cases hf'
    · have hf' : (if (kv.2 != v2) = true then some (kv.1, kv.2, v2) else none) =
          some (k, vA, vB) := hf
      by_cases hne : (kv.2 != v2) = true
      · rw [if_pos hne] at hf'
        obtain ⟨h1, h2, h3⟩ : kv.1 = k ∧ kv.2 = vA ∧ v2 = vB := by
          have := Option.some.inj hf'
          simpa [Prod.ext_iff] using this
        have hlA : lookup (normalize A) k = some vA := by
          rw [← h1, ← h2]
          exact lookup_eq_some_of_mem (nodup_keysOf_normalize A) (by simpa using hmA)
        have hlB : lookup (normalize B) k = some vB := by rw [← h1, hlook, h3]
        refine ⟨(lookup_isSome_iff _ _).mp (by simp [hlA]),
          (lookup_isSome_iff _ _).mp (by simp [hlB]), ?_⟩
        rw [hlA, hlB]
        intro hc
        have hveq : vA = vB := by simpa using hc
        have hkv2 : kv.2 = v2 := by rw [h2, h3, hveq]
        rw [hkv2] at hne
        simp at hne
      · rw [if_neg hne] at hf'
        cases hf'
  · rintro ⟨hkA, hkB, hne⟩
    obtain ⟨vA, hmA⟩ := (mem_keysOf_iff _ _).mp hkA
    have hlA : lookup (normalize A) k = some vA :=
      lookup_eq_some_of_mem (nodup_keysOf_normalize A) hmA
    obtain ⟨vB, hmB⟩ := (mem_keysOf_iff _ _).mp hkB
    have hlB : lookup (normalize B) k = some vB :=
      lookup_eq_some_of_mem (nodup_keysOf_normalize B) hmB
    have hvne : vA ≠ vB := fun hc => hne (by rw [hlA, hlB, hc])
    refine List.mem_map.mpr ⟨(k, vA, vB), List.mem_filterMap.mpr ⟨(k, vA), hmA, ?_⟩, rfl⟩
    simp only [hlB]
    rw [if_pos (by simpa using hvne)]

theorem mem_keysOf_of_mem {s : List (String × String)} {kv : String × String}
    (h : kv ∈ s) : kv.1 ∈ keysOf s :=
  List.mem_map.mpr ⟨kv, h, rfl⟩

/-- C5: for every schema `A`, `compare_schemas A A` returns empty Added,
empty Removed and empty Conflicted. -/
theorem compare_schemas_self (A : Schema) : compare_schemas A A = ([], [], []) := by
  have h1 : (compare_schemas A A).1 = [] := by
    have hview : (compare_schemas A A).1 =
        (normalize A).filter (fun kv => !containsKey (normalize A) kv.1) := rfl
    rw [hview, List.filter_eq_nil_iff]
    intro kv hm
    have hck : containsKey (normalize A) kv.1 = true :=
      (containsKey_iff _ _).mpr (mem_keysOf_of_mem hm)
    simp [hck]
  have h2 : (compare_schemas A A).2.1 = [] := by
    have hview : (compare_schemas A A).2.1 =
        (normalize A).filter (fun kv => !containsKey (normalize A) kv.1) := rfl
    rw [hview, List.filter_eq_nil_iff]
    intro kv hm
    have hck : containsKey (normalize A) kv.1 = true :=
      (containsKey_iff _ _).mpr (mem_keysOf_of_mem hm)
    simp [hck]
  have h3 : (compare_schemas A A).2.2 = [] := by
    have hview : (compare_schemas A A).2.2 = (normalize A).filterMap (fun kv =>
        match lookup (normalize A) kv.1 with
        | some v2 => if kv.2 != v2 then some (kv.1, kv.2, v2) else none
        | none => none) := rfl
    rw [hview, List.filterMap_eq_nil_iff]
    intro kv hm
    have hl : lookup (normalize A) kv.1 = some kv.2 :=
      lookup_eq_some_of_mem (nodup_keysOf_normalize A) (by simpa using hm)
    rw [hl]
    simp
  exact Prod.ext h1 (Prod.ext h2 h3)

/-- C6: the Added mapping of `compare_schemas A B` equals the Removed
mapping of `compare_schemas B A`, and vice versa: both sides compute the
same dict comprehension over the same normalized inputs. -/
theorem compare_schemas_swap (A B : Schema) :
    (compare_schemas A B).1 = (compare_schemas B A).2.1 ∧
    (compare_schemas A B).2.1 = (compare_schemas B A).1 :=
  ⟨rfl, rfl⟩

/-- C1: the key-sets of Added, Removed and Conflicted are pairwise
disjoint, and every key of either normalized input schema falls into
exactly one of Added, Removed, Conflicted, or Unchanged (present in both
with equal type). -/
theorem compare_schemas_partition (A B : Schema) (k : String) :
    (k ∈ keysOf (compare_schemas A B).1 → k ∉ keysOf (compare_schemas A B).2.1) ∧
    (k ∈ keysOf (compare_schemas A B).1 → k ∉ (compare_schemas A B).2.2.map Prod.fst) ∧
    (k ∈ keysOf (compare_schemas A B).2.1 → k ∉ (compare_schemas A B).2.2.map Prod.fst) ∧
    (k ∈ keysOf (normalize A) ∨ k ∈ keysOf (normalize B) →
      exactlyOne4 (k ∈ keysOf (compare_schemas A B).1)
        (k ∈ keysOf (compare_schemas A B).2.1)
        (k ∈ (compare_schemas A B).2.2.map Prod.fst)
        (k ∈ keysOf (normalize A) ∧ k ∈ keysOf (normalize B) ∧
          lookup (normalize A) k = lookup (normalize B) k)) := by
  rw [mem_keysOf_added, mem_keysOf_removed, mem_keysOf_conflicts]
  unfold exactlyOne4
  tauto

/-- C10: type equality in `compare_schemas` is exact case-sensitive string
comparison on the type values: keys are upper-cased during normalization
but values are not, so `"text"` vs `"TEXT"` on the same column is
classified as Conflicted. -/
theorem compare_schemas_type_case_sensitive :
    (∀ (A B : Schema) (k : String),
      k ∈ ((compare_schemas A B).2.2.map Prod.fst) ↔
        k ∈ keysOf (normalize A) ∧ k ∈ keysOf (normalize B) ∧
          lookup (normalize A) k ≠ lookup (normalize B) k) ∧
    compare_schemas [("a", "text")] [("A", "TEXT")] =
      ([], [], [("A", "text", "TEXT")]) :=
  ⟨mem_keysOf_conflicts, by decide⟩

/-- C3 (amended): on an empty diff `explain_changes_with_ai` returns the
static no-changes template — which embeds the table name but is otherwise
fixed — and never invokes the text-generation capability: the result is
identical for every capability. -/
theorem explain_empty_diff_static (f g : String → String) (A B : Schema)
    (t : String) (h : compare_schemas A B = ([], [], [])) :
    explain_changes_with_ai f A B t = noChangesExplain t ∧
    explain_changes_with_ai f A B t = explain_changes_with_ai g A B t := by
  constructor <;> simp [explain_changes_with_ai, h]

/-- C3 counterexample: the message returned on an empty diff is not the
same for every table name — the table name is interpolated into it. -/
theorem explain_empty_diff_cex :
    explain_changes_with_ai (fun _ => "") [] [] "T1" ≠
    explain_changes_with_ai (fun _ => "") [] [] "T2" := by decide

/-- Witness for `explain_empty_diff_static` at a concrete empty diff. -/
theorem explain_empty_diff_static_witness :
    compare_schemas [("A", "TEXT")] [("a", "TEXT")] = ([], [], []) ∧
    explain_changes_with_ai (fun _ => "x") [("A", "TEXT")] [("a", "TEXT")] "T" =
      noChangesExplain "T" ∧
    explain_changes_with_ai (fun _ => "x") [("A", "TEXT")] [("a", "TEXT")] "T" =
      explain_changes_with_ai (fun _ => "y") [("A", "TEXT")] [("a", "TEXT")] "T" :=
  ⟨by decide,
    (explain_empty_diff_static (fun _ => "x") (fun _ => "y") _ _ "T" (by decide)).1,
    (explain_empty_diff_static (fun _ => "x") (fun _ => "y") _ _ "T" (by decide)).2⟩

theorem strNeEmpty {s : String} (h : 0 < s.length) : s ≠ "" := by
  intro hc
  subst hc
  exact absurd h (by decide)

theorem addStmt_length_pos (t c d : String) : 0 < (addStmt t c d).length := by
  have h12 : ("ALTER TABLE " : String).length = 12 := rfl
  simp only [addStmt, String.length_append, h12]
  omega

theorem removeComment_length_pos (c d : String) : 0 < (removeComment c d).length := by
  have h16 : ("-- NOTE: Column " : String).length = 16 := rfl
  simp only [removeComment, String.length_append, h16]
  omega

theorem conflictStmt_length_pos (t c n : String) : 0 < (conflictStmt t c n).length := by
  have h12 : ("ALTER TABLE " : String).length = 12 := rfl
  simp only [conflictStmt, String.length_append, h12]
  omega

theorem joinWith_length_pos {a : String} (sep : String) (l : List String)
    (h : 0 < a.length) : 0 < (joinWith sep (a :: l)).length := by
  cases l with
  | nil => exact h
  | cons b rest =>
    simp only [joinWith, String.length_append]
    omega

/-! ### Substring occurrences across concatenations -/

theorem startsWithChars_iff (s pat : List Char) :
    startsWithChars s pat = true ↔ ∃ r, s = pat ++ r := by
  induction pat generalizing s with
  | nil => simp [startsWithChars]
  | cons p ps ih =>
    cases s with
    | nil => simp [startsWithChars]
    | cons c s' =>
      simp only [startsWithChars, Bool.and_eq_true, beq_iff_eq, ih, List.cons_append]
      constructor
      · rintro ⟨rfl, r, rfl⟩
        exact ⟨r, rfl⟩
      · rintro ⟨r, heq⟩
        obtain ⟨h1, h2⟩ := List.cons.inj heq
        exact ⟨h1, r, h2⟩

theorem containsChars_iff (s pat : List Char) :
    containsChars s pat = true ↔ occursIn pat s := by
  induction s with
  | nil =>
    simp only [containsChars, List.isEmpty_iff, occursIn]
    constructor
    · rintro rfl
      exact ⟨[], [], rfl⟩
    · rintro ⟨l, r, h⟩
      have h' := h.symm
      simp only [List.append_eq_nil] at h'
      exact h'.2.1
  | cons c rest ih =>
    simp only [containsChars, Bool.or_eq_true, startsWithChars_iff, ih]
    constructor
    · rintro (⟨r, hr⟩ | ⟨l, r, hr⟩)
      · exact ⟨[], r, by simpa using hr⟩
      · exact ⟨c :: l, r, by rw [hr]; rfl⟩
    · rintro ⟨l, r, hr⟩
      cases l with
      | nil => exact Or.inl ⟨r, by simpa using hr⟩
      | cons x l' =>
        obtain ⟨hx, hrest⟩ := List.cons.inj hr
        exact Or.inr ⟨l', r, hrest⟩

theorem containsChars_eq_false_iff (s pat : List Char) :
    containsChars s pat = false ↔ ¬ occursIn pat s := by
  rw [← containsChars_iff]
  cases containsChars s pat <;> simp

theorem occursIn_of_occursIn_append_left (p q s : List Char)
    (h : occursIn (p ++ q) s) : occursIn p s := by
  obtain ⟨l, r, hr⟩ := h
  exact ⟨l, q ++ r, by rw [hr]; simp [List.append_assoc]⟩

theorem occursIn_append_split {pat a b : List Char} (h : occursIn pat (a ++ b)) :
    occursIn pat a ∨ occursIn pat b ∨
    ∃ p1 p2, pat = p1 ++ p2 ∧ p1 ≠ [] ∧ p2 ≠ [] ∧
      (∃ l, a = l ++ p1) ∧ ∃ r, b = p2 ++ r := by
  obtain ⟨l, r, hr⟩ := h
  rcases List.append_eq_append_iff.mp hr with ⟨x, hx, hbx⟩ | ⟨y, hay, hyr⟩
  · exact Or.inr (Or.inl ⟨x, r, hbx⟩)
  · rcases List.append_eq_append_iff.mp hyr with ⟨u, hu, hru⟩ | ⟨v, hpv, hbv⟩
    · exact Or.inl ⟨l, u, by rw [hay, hu]⟩
    · cases y with
      | nil =>
        refine Or.inr (Or.inl ⟨[], r, ?_⟩)
        simp only [List.nil_append] at hpv ⊢
        rw [hbv, ← hpv]
      | cons yc yl =>
        cases v with
        | nil =>
          refine Or.inl ⟨l, [], ?_⟩
          simp only [List.append_nil] at hpv ⊢
          rw [hay, ← hpv]
        | cons vc vl =>
          exact Or.inr (Or.inr ⟨yc :: yl, vc :: vl, hpv, by simp, by simp,
            ⟨l, hay⟩, ⟨r, hbv⟩⟩)

theorem occursIn_append_or_of_sep_left {pat a b : List Char} {c0 : Char}
    (hb : ∃ b0, b = c0 :: b0) (hc : c0 ∉ pat) (h : occursIn pat (a ++ b)) :
    occursIn pat a ∨ occursIn pat b := by
  rcases occursIn_append_split h with h' | h' | ⟨p1, p2, hpat, _, hp2, _, r, hbr⟩
  · exact Or.inl h'
  · exact Or.inr h'
  · exfalso
    obtain ⟨b0, rfl⟩ := hb
    cases p2 with
    | nil => exact hp2 rfl
    | cons x xs =>
      obtain ⟨hx, _⟩ := List.cons.inj hbr
      apply hc
      rw [hpat, hx]
      exact List.mem_append.mpr (Or.inr (List.mem_cons_self _ _))

theorem occursIn_append_or_of_sep_right {pat a b : List Char} {c0 : Char}
    (ha : ∃ a0, a = a0 ++ [c0]) (hc : c0 ∉ pat) (h : occursIn pat (a ++ b)) :
    occursIn pat a ∨ occursIn pat b := by
  rcases occursIn_append_split h with h' | h' | ⟨p1, p2, hpat, hp1, _, ⟨l, hal⟩, _⟩
  · exact Or.inl h'
  · exact Or.inr h'
  · exfalso
    obtain ⟨a0, rfl⟩ := ha
    rcases List.eq_nil_or_concat p1 with rfl | ⟨L, x, hLx⟩
    · exact hp1 rfl
    · rw [List.concat_eq_append] at hLx
      rw [hLx, ← List.append_assoc] at hal
      have hxc : ([c0] : List Char) = [x] :=
        List.append_inj_right' hal (by simp)
      apply hc
      rw [hpat, hLx]
      have : c0 = x := by simpa using hxc
      rw [this]
      exact List.mem_append.mpr (Or.inl (List.mem_append.mpr (Or.inr
        (List.mem_singleton.mpr rfl))))

theorem not_occursIn_singleton {pat : List Char} {c0 : Char}
    (hne : pat ≠ []) (hc : c0 ∉ pat) : ¬ occursIn pat [c0] := by
  rintro ⟨l, r, hr⟩
  cases l with
  | nil =>
    cases pat with
    | nil => exact hne rfl
    | cons p ps =>
      obtain ⟨h1, _⟩ := List.cons.inj hr
      exact hc (h1 ▸ List.mem_cons_self _ _)
  | cons x xs =>
    obtain ⟨_, h2⟩ := List.cons.inj hr
    have h2' : xs ++ (pat ++ r) = [] := h2.symm
    simp only [List.append_eq_nil] at h2'
    exact hne h2'.2.1

theorem occursIn_right_of_sep_left {pat a b : List Char} {c0 : Char}
    (hb : ∃ b0, b = c0 :: b0) (hc : c0 ∉ pat) (hclean : ¬ occursIn pat a)
    (h : occursIn pat (a ++ b)) : occursIn pat b := by
  rcases occursIn_append_or_of_sep_left hb hc h with h' | h'
  · exact absurd h' hclean
  · exact h'

theorem occursIn_right_of_sep_right {pat a b : List Char} {c0 : Char}
    (ha : ∃ a0, a = a0 ++ [c0]) (hc : c0 ∉ pat) (hclean : ¬ occursIn pat a)
    (h : occursIn pat (a ++ b)) : occursIn pat b := by
  rcases occursIn_append_or_of_sep_right ha hc h with h' | h'
  · exact absurd h' hclean
  · exact h'

theorem cons_head_append {x : List Char} {lit : String} {c0 : Char} {tl : List Char}
    (h : lit.data = c0 :: tl) : ∃ b0, lit.data ++ x = c0 :: b0 :=
  ⟨tl ++ x, by rw [h]; rfl⟩

theorem mem_sqlStatements_shape {A B : Schema} {t line : String}
    (h : line ∈ sqlStatements A B t) :
    (∃ c d, (c, d) ∈ (compare_schemas A B).1 ∧ line = addStmt t c d) ∨
    (∃ c d, (c, d) ∈ (compare_schemas A B).2.1 ∧ line = removeComment c d) ∨
    (∃ c d n, (c, d, n) ∈ (compare_schemas A B).2.2 ∧ line = conflictStmt t c n) := by
  have hview : sqlStatements A B t =
      (compare_schemas A B).1.map (fun kv => addStmt t kv.1 kv.2) ++
      (compare_schemas A B).2.1.map (fun kv => removeComment kv.1 kv.2) ++
      (compare_schemas A B).2.2.map (fun kvt => conflictStmt t kvt.1 kvt.2.2) := rfl
  rw [hview] at h
  rcases List.mem_append.mp h with h' | h3
  · rcases List.mem_append.mp h' with h1 | h2
    · obtain ⟨kv, hm, heq⟩ := List.mem_map.mp h1
      exact Or.inl ⟨kv.1, kv.2, by simpa using hm, heq.symm⟩
    · obtain ⟨kv, hm, heq⟩ := List.mem_map.mp h2
      exact Or.inr (Or.inl ⟨kv.1, kv.2, by simpa using hm, heq.symm⟩)
  · obtain ⟨kvt, hm, heq⟩ := List.mem_map.mp h3
    exact Or.inr (Or.inr ⟨kvt.1, kvt.2.1, kvt.2.2, by simpa using hm, heq.symm⟩)

theorem sqlStatements_head_length_pos {A B : Schema} {t line : String}
    (h : line ∈ sqlStatements A B t) : 0 < line.length := by
  rcases mem_sqlStatements_shape h with ⟨c, d, _, rfl⟩ | ⟨c, d, _, rfl⟩ | ⟨c, d, n, _, rfl⟩
  · exact addStmt_length_pos t c d
  · exact removeComment_length_pos c d
  · exact conflictStmt_length_pos t c n

/-- C4: on an empty diff `generate_sql_with_ai` returns the fixed
non-empty advisory comment, and on every input the result is a non-empty
string. -/
theorem generate_sql_never_empty :
    (∀ (A B : Schema) (t : String), compare_schemas A B = ([], [], []) →
      generate_sql_with_ai A B t = noChangesSql) ∧
    noChangesSql ≠ "" ∧
    (∀ (A B : Schema) (t : String), generate_sql_with_ai A B t ≠ "") := by
  refine ⟨?_, by decide, ?_⟩
  · intro A B t h
    simp [generate_sql_with_ai, sqlStatements, h]
  · intro A B t
    unfold generate_sql_with_ai
    cases hst : sqlStatements A B t with
    | nil => simpa [hst] using (by decide : noChangesSql ≠ "")
    | cons a rest =>
      have hmem : a ∈ sqlStatements A B t := by rw [hst]; exact List.mem_cons_self a rest
      have hpos := sqlStatements_head_length_pos hmem
      simp only [hst, List.isEmpty_cons, Bool.false_eq_true, if_false]
      exact strNeEmpty (joinWith_length_pos "\n" rest hpos)

/-- C7: on a non-empty diff the output is exactly the newline-join of one
`ALTER TABLE <t> ADD COLUMN <col> <type> NULL;` line per Added column,
then one advisory comment per Removed column, then one
`ALTER TABLE <t> ALTER COLUMN <col> SET DATA TYPE <candidate type>;` line
per Conflicted column; each category keeps its dict's deterministic
insertion order. -/
theorem generate_sql_structure (A B : Schema) (t : String)
    (h : compare_schemas A B ≠ ([], [], [])) :
    generate_sql_with_ai A B t = joinWith "\n"
      ((compare_schemas A B).1.map (fun kv =>
          "ALTER TABLE " ++ t ++ " ADD COLUMN " ++ kv.1 ++ " " ++ kv.2 ++ " NULL;") ++
        (compare_schemas A B).2.1.map (fun kv =>
          "-- NOTE: Column " ++ kv.1 ++ " (" ++ kv.2 ++
            ") exists in old schema but not in new. Drop only if intentional.") ++
        (compare_schemas A B).2.2.map (fun kvt =>
          "ALTER TABLE " ++ t ++ " ALTER COLUMN " ++ kvt.1 ++
            " SET DATA TYPE " ++ kvt.2.2 ++ ";")) := by
  have hstmts : sqlStatements A B t ≠ [] := by
    intro hc
    apply h
    have hview : sqlStatements A B t =
        (compare_schemas A B).1.map (fun kv => addStmt t kv.1 kv.2) ++
        (compare_schemas A B).2.1.map (fun kv => removeComment kv.1 kv.2) ++
        (compare_schemas A B).2.2.map (fun kvt => conflictStmt t kvt.1 kvt.2.2) := rfl
    rw [hview] at hc
    simp only [List.append_eq_nil, List.map_eq_nil_iff] at hc
    exact Prod.ext hc.1.1 (Prod.ext hc.1.2 hc.2)
  unfold generate_sql_with_ai
  rw [if_neg (by simpa [List.isEmpty_iff] using hstmts)]
  rfl

theorem mem_added_mem_normalize {A B : Schema} {c d : String}
    (h : (c, d) ∈ (compare_schemas A B).1) : (c, d) ∈ normalize B := by
  have hview : (compare_schemas A B).1 =
      (normalize B).filter (fun kv => !containsKey (normalize A) kv.1) := rfl
  rw [hview] at h
  exact (List.mem_filter.mp h).1

theorem mem_removed_mem_normalize {A B : Schema} {c d : String}
    (h : (c, d) ∈ (compare_schemas A B).2.1) : (c, d) ∈ normalize A := by
  have hview : (compare_schemas A B).2.1 =
      (normalize A).filter (fun kv => !containsKey (normalize B) kv.1) := rfl
  rw [hview] at h
  exact (List.mem_filter.mp h).1

theorem mem_conflicts_mem_normalize {A B : Schema} {x : String × String × String}
    (h : x ∈ (compare_schemas A B).2.2) :
    (x.1, x.2.1) ∈ normalize A ∧ (x.1, x.2.2) ∈ normalize B := by
  have hview : (compare_schemas A B).2.2 = (normalize A).filterMap (fun kv =>
      match lookup (normalize B) kv.1 with
      | some v2 => if kv.2 != v2 then some (kv.1, kv.2, v2) else none
      | none => none) := rfl
  rw [hview] at h
  obtain ⟨kv, hmA, hf⟩ := List.mem_filterMap.mp h
  rcases hlook : lookup (normalize B) kv.1 with _ | v2 <;> rw [hlook] at hf
  · have hf' : (none : Option (String × String × String)) = some x := hf
    cases hf'
  · have hf' : (if (kv.2 != v2) = true then some (kv.1, kv.2, v2) else none) = some x := hf
    by_cases hne : (kv.2 != v2) = true
    · rw [if_pos hne] at hf'
      have hx := Option.some.inj hf'
      constructor
      · rw [← hx]
        simpa using hmA
      · rw [← hx]
        simpa using mem_of_lookup_eq_some hlook
    · rw [if_neg hne] at hf'
      cases hf'

theorem addStmt_no_DROP {t c d : String}
    (ht : containsSubstr t "DROP" = false) (hc : containsSubstr c "DROP" = false)
    (hd : containsSubstr d "DROP" = false) :
    containsSubstr (addStmt t c d) "DROP" = false := by
  rw [containsSubstr, containsChars_eq_false_iff] at ht hc hd ⊢
  intro h
  have hdata : (addStmt t c d).data =
      ("ALTER TABLE " : String).data ++ (t.data ++ ((" ADD COLUMN " : String).data ++
        (c.data ++ ((" " : String).data ++ (d.data ++ (" NULL;" : String).data))))) := by
    simp [addStmt, List.append_assoc]
  rw [hdata] at h
  have hsp : ' ' ∉ ("DROP" : String).data := by decide
  replace h := occursIn_right_of_sep_right ⟨("ALTER TABLE" : String).data, by decide⟩ hsp
    ((containsChars_eq_false_iff _ _).mp (by decide)) h
  replace h := occursIn_right_of_sep_left (cons_head_append
    (by decide : (" ADD COLUMN " : String).data = ' ' :: ("ADD COLUMN " : String).data))
    hsp ht h
  replace h := occursIn_right_of_sep_right ⟨(" ADD COLUMN" : String).data, by decide⟩ hsp
    ((containsChars_eq_false_iff _ _).mp (by decide)) h
  replace h := occursIn_right_of_sep_left (cons_head_append
    (by decide : (" " : String).data = ' ' :: ([] : List Char))) hsp hc h
  replace h := occursIn_right_of_sep_right ⟨[], by decide⟩ hsp
    ((containsChars_eq_false_iff _ _).mp (by decide)) h
  replace h := occursIn_right_of_sep_left
    ⟨("NULL;" : String).data, by decide⟩ hsp hd h
  exact (containsChars_eq_false_iff _ _).mp (by decide) h

theorem removeComment_no_DROP {c d : String}
    (hc : containsSubstr c "DROP" = false) (hd : containsSubstr d "DROP" = false) :
    containsSubstr (removeComment c d) "DROP" = false := by
  rw [containsSubstr, containsChars_eq_false_iff] at hc hd ⊢
  intro h
  have hdata : (removeComment c d).data =
      ("-- NOTE: Column " : String).data ++ (c.data ++ ((" (" : String).data ++
        (d.data ++
          (") exists in old schema but not in new. Drop only if intentional." :
            String).data))) := by
    simp [removeComment, List.append_assoc]
  rw [hdata] at h
  have hsp : ' ' ∉ ("DROP" : String).data := by decide
  replace h := occursIn_right_of_sep_right ⟨("-- NOTE: Column" : String).data, by decide⟩
    hsp ((containsChars_eq_false_iff _ _).mp (by decide)) h
  replace h := occursIn_right_of_sep_left (cons_head_append
    (by decide : (" (" : String).data = ' ' :: ['('])) hsp hc h
  replace h := occursIn_right_of_sep_right ⟨[' '], by decide⟩
    (by decide : '(' ∉ ("DROP" : String).data)
    ((containsChars_eq_false_iff _ _).mp (by decide)) h
  replace h := occursIn_right_of_sep_left
    ⟨(" exists in old schema but not in new. Drop only if intentional." : String).data,
      by decide⟩
    (by decide : ')' ∉ ("DROP" : String).data) hd h
  exact (containsChars_eq_false_iff _ _).mp (by decide) h

theorem conflictStmt_no_DROP {t c n : String}
    (ht : containsSubstr t "DROP" = false) (hc : containsSubstr c "DROP" = false)
    (hn : containsSubstr n "DROP" = false) :
    containsSubstr (conflictStmt t c n) "DROP" = false := by
  rw [containsSubstr, containsChars_eq_false_iff] at ht hc hn ⊢
  intro h
  have hdata : (conflictStmt t c n).data =
      ("ALTER TABLE " : String).data ++ (t.data ++ ((" ALTER COLUMN " : String).data ++
        (c.data ++ ((" SET DATA TYPE " : String).data ++
          (n.data ++ (";" : String).data))))) := by
    simp [conflictStmt, List.append_assoc]
  rw [hdata] at h
  have hsp : ' ' ∉ ("DROP" : String).data := by decide
  replace h := occursIn_right_of_sep_right ⟨("ALTER TABLE" : String).data, by decide⟩ hsp
    ((containsChars_eq_false_iff _ _).mp (by decide)) h
  replace h := occursIn_right_of_sep_left (cons_head_append
    (by decide : (" ALTER COLUMN " : String).data = ' ' :: ("ALTER COLUMN " : String).data))
    hsp ht h
  replace h := occursIn_right_of_sep_right ⟨(" ALTER COLUMN" : String).data, by decide⟩ hsp
    ((containsChars_eq_false_iff _ _).mp (by decide)) h
  replace h := occursIn_right_of_sep_left (cons_head_append
    (by decide : (" SET DATA TYPE " : String).data = ' ' :: ("SET DATA TYPE " : String).data))
    hsp hc h
  replace h := occursIn_right_of_sep_right ⟨(" SET DATA TYPE" : String).data, by decide⟩ hsp
    ((containsChars_eq_false_iff _ _).mp (by decide)) h
  replace h := occursIn_right_of_sep_left ⟨([] : List Char), by decide⟩
    (by decide : ';' ∉ ("DROP" : String).data) hn h
  exact (containsChars_eq_false_iff _ _).mp (by decide) h

theorem joinWith_nl_no_occurs {pat : List Char} (hnl : '\n' ∉ pat) (hne : pat ≠ [])
    {l : List String} (h : ∀ x ∈ l, ¬ occursIn pat x.data) :
    ¬ occursIn pat (joinWith "\n" l).data := by
  induction l with
  | nil =>
    rintro ⟨ll, r, hr⟩
    have hr' : ll ++ (pat ++ r) = [] := hr.symm
    simp only [List.append_eq_nil] at hr'
    exact hne hr'.2.1
  | cons a rest ih =>
    cases rest with
    | nil => exact h a (List.mem_cons_self _ _)
    | cons b rest' =>
      intro hocc
      have hdata : (joinWith "\n" (a :: b :: rest')).data =
          a.data ++ (("\n" : String).data ++ (joinWith "\n" (b :: rest')).data) := by
        show (a ++ "\n" ++ joinWith "\n" (b :: rest')).data = _
        simp [List.append_assoc]
      rw [hdata] at hocc
      replace hocc := occursIn_right_of_sep_left (cons_head_append
        (by decide : ("\n" : String).data = '\n' :: ([] : List Char))) hnl
        (h a (List.mem_cons_self _ _)) hocc
      replace hocc := occursIn_right_of_sep_right ⟨[], by decide⟩ hnl
        (not_occursIn_singleton hne hnl) hocc
      exact ih (fun x hx => h x (List.mem_cons_of_mem _ hx)) hocc

theorem sqlStatements_no_DROP {A B : Schema} {t line : String}
    (hm : line ∈ sqlStatements A B t)
    (ht : containsSubstr t "DROP" = false)
    (hA : ∀ kv ∈ normalize A, containsSubstr kv.1 "DROP" = false ∧
      containsSubstr kv.2 "DROP" = false)
    (hB : ∀ kv ∈ normalize B, containsSubstr kv.1 "DROP" = false ∧
      containsSubstr kv.2 "DROP" = false) :
    containsSubstr line "DROP" = false := by
  rcases mem_sqlStatements_shape hm with ⟨c, d, hmem, rfl⟩ | ⟨c, d, hmem, rfl⟩ |
    ⟨c, d, n, hmem, rfl⟩
  · have hh := hB (c, d) (mem_added_mem_normalize hmem)
    exact addStmt_no_DROP ht hh.1 hh.2
  · have hh := hA (c, d) (mem_removed_mem_normalize hmem)
    exact removeComment_no_DROP hh.1 hh.2
  · have hh := mem_conflicts_mem_normalize hmem
    have h1 := hA _ hh.1
    have h2 := hB _ hh.2
    exact conflictStmt_no_DROP ht h1.1 h2.2

theorem no_DROP_COLUMN_of_no_DROP {s : String}
    (h : containsSubstr s "DROP" = false) :
    containsSubstr s "DROP COLUMN" = false := by
  rw [containsSubstr, containsChars_eq_false_iff] at h ⊢
  intro hocc
  apply h
  have hsplit : ("DROP COLUMN" : String).data =
      ("DROP" : String).data ++ (" COLUMN" : String).data := by decide
  rw [hsplit] at hocc
  exact occursIn_of_occursIn_append_left _ _ _ hocc

/-- C2 (amended): every line the synthesizer emits is an instance of the
`ADD COLUMN` template, the advisory-comment template for a Removed
column, or the `ALTER COLUMN ... SET DATA TYPE` template; the
advisory-comment template begins with `--`; whenever neither the table
name nor any column name or type value of the normalized schemas
contains the substring `DROP`, the returned text contains no
`DROP COLUMN` at all (contrapositively, `DROP COLUMN` can reach the
output only if some caller-supplied fragment contains `DROP`); and the
fixed text of the templates and of the no-changes comment contains no
`DROP COLUMN`. -/
theorem sql_never_drop_column :
    (∀ (A B : Schema) (t line : String), line ∈ sqlStatements A B t →
      (∃ c d, (c, d) ∈ (compare_schemas A B).1 ∧ line = addStmt t c d) ∨
      (∃ c d, (c, d) ∈ (compare_schemas A B).2.1 ∧ line = removeComment c d) ∨
      (∃ c d n, (c, d, n) ∈ (compare_schemas A B).2.2 ∧ line = conflictStmt t c n)) ∧
    (∀ c d, ∃ rest, removeComment c d = "--" ++ rest) ∧
    (∀ (A B : Schema) (t : String),
      containsSubstr t "DROP" = false →
      (∀ kv ∈ normalize A, containsSubstr kv.1 "DROP" = false ∧
        containsSubstr kv.2 "DROP" = false) →
      (∀ kv ∈ normalize B, containsSubstr kv.1 "DROP" = false ∧
        containsSubstr kv.2 "DROP" = false) →
      containsSubstr (generate_sql_with_ai A B t) "DROP COLUMN" = false) ∧
    containsSubstr (addStmt "" "" "") "DROP COLUMN" = false ∧
    containsSubstr (removeComment "" "") "DROP COLUMN" = false ∧
    containsSubstr (conflictStmt "" "" "") "DROP COLUMN" = false ∧
    containsSubstr noChangesSql "DROP COLUMN" = false := by
  refine ⟨fun A B t line h => mem_sqlStatements_shape h, ?_, ?_, by decide, by decide,
    by decide, by decide⟩
  · intro c d
    refine ⟨" NOTE: Column " ++ (c ++ (" (" ++ (d ++
      ") exists in old schema but not in new. Drop only if intentional."))), ?_⟩
    simp only [removeComment]
    apply String.ext
    simp [List.append_assoc]
  · intro A B t ht hA hB
    unfold generate_sql_with_ai
    show containsSubstr (if (sqlStatements A B t).isEmpty = true then noChangesSql
      else joinWith "\n" (sqlStatements A B t)) "DROP COLUMN" = false
    split
    · decide
    · apply no_DROP_COLUMN_of_no_DROP
      rw [containsSubstr, containsChars_eq_false_iff]
      apply joinWith_nl_no_occurs (by decide) (by decide)
      intro x hx
      rw [← containsChars_eq_false_iff]
      exact sqlStatements_no_DROP hx ht hA hB

/-- C2 counterexample: with a table name containing `DROP COLUMN`, the
single output line contains `DROP COLUMN`. -/
theorem sql_drop_column_cex :
    (linesOf (generate_sql_with_ai [] [("A", "TEXT")] "T DROP COLUMN C")).any
      (fun l => containsSubstr l "DROP COLUMN") = true := by decide

/-- Witness for `sql_never_drop_column`: the shape conjunct at a concrete
removed column, and the no-DROP-COLUMN conjunct at a concrete diff with
DROP-free inputs. -/
theorem sql_never_drop_column_witness :
    (removeComment "A" "TEXT" ∈ sqlStatements [("A", "TEXT")] [] "T" ∧
      ((∃ c d, (c, d) ∈ (compare_schemas [("A", "TEXT")] []).1 ∧
          removeComment "A" "TEXT" = addStmt "T" c d) ∨
        (∃ c d, (c, d) ∈ (compare_schemas [("A", "TEXT")] []).2.1 ∧
          removeComment "A" "TEXT" = removeComment c d) ∨
        (∃ c d n, (c, d, n) ∈ (compare_schemas [("A", "TEXT")] []).2.2 ∧
          removeComment "A" "TEXT" = conflictStmt "T" c n))) ∧
    (containsSubstr "T" "DROP" = false ∧
      containsSubstr (generate_sql_with_ai [("A", "TEXT")] [("A", "NUMBER"), ("B", "TEXT")] "T")
        "DROP COLUMN" = false) :=
  ⟨⟨by decide, sql_never_drop_column.1 [("A", "TEXT")] [] "T" _ (by decide)⟩,
    ⟨by decide,
      sql_never_drop_column.2.2.1 [("A", "TEXT")] [("A", "NUMBER"), ("B", "TEXT")] "T"
        (by decide) (by decide) (by decide)⟩⟩

/-- Witness for `generate_sql_structure` at a concrete non-empty diff. -/
theorem generate_sql_structure_witness :
    compare_schemas [("A", "TEXT")] [("A", "NUMBER"), ("B", "TEXT")] ≠ ([], [], []) ∧
    generate_sql_with_ai [("A", "TEXT")] [("A", "NUMBER"), ("B", "TEXT")] "T" = joinWith "\n"
      ((compare_schemas [("A", "TEXT")] [("A", "NUMBER"), ("B", "TEXT")]).1.map (fun kv =>
          "ALTER TABLE " ++ "T" ++ " ADD COLUMN " ++ kv.1 ++ " " ++ kv.2 ++ " NULL;") ++
        (compare_schemas [("A", "TEXT")] [("A", "NUMBER"), ("B", "TEXT")]).2.1.map (fun kv =>
          "-- NOTE: Column " ++ kv.1 ++ " (" ++ kv.2 ++
            ") exists in old schema but not in new. Drop only if intentional.") ++
        (compare_schemas [("A", "TEXT")] [("A", "NUMBER"), ("B", "TEXT")]).2.2.map (fun kvt =>
          "ALTER TABLE " ++ "T" ++ " ALTER COLUMN " ++ kvt.1 ++
            " SET DATA TYPE " ++ kvt.2.2 ++ ";")) :=
  ⟨by decide, generate_sql_structure [("A", "TEXT")] [("A", "NUMBER"), ("B", "TEXT")] "T"
    (by decide)⟩

theorem mem_dictInsert {s : List (String × String)} {k v : String}
    {kv : String × String} (h : kv ∈ dictInsert s k v) : kv ∈ s ∨ kv = (k, v) := by
  unfold dictInsert at h
  split at h
  · obtain ⟨kv', hm, heq⟩ := List.mem_map.mp h
    by_cases hk : (kv'.1 == k) = true
    · right
      rw [← heq, if_pos hk]
    · left
      rw [← heq, if_neg hk]
      exact hm
  · rcases List.mem_append.mp h with hm | hm
    · exact Or.inl hm
    · exact Or.inr (by simpa using hm)

theorem infer_foldl_shape (P : String × String → Prop) :
    ∀ (l : DataFrame) (acc : Schema),
      (∀ kv ∈ acc, P kv) →
      (∀ col ∈ l, P (strUpper col.name, classifyDtype col.dtype)) →
      ∀ kv ∈ l.foldl
        (fun s c => dictInsert s (strUpper c.name) (classifyDtype c.dtype)) acc, P kv := by
  intro l
  induction l with
  | nil => exact fun acc hacc _ kv hm => hacc kv hm
  | cons c rest ih =>
    intro acc hacc hl kv hm
    refine ih _ ?_ (fun col hc => hl col (List.mem_cons_of_mem _ hc)) kv hm
    intro kv' hm'
    rcases mem_dictInsert hm' with hin | heq
    · exact hacc kv' hin
    · rw [heq]
      exact hl c (List.mem_cons_self _ _)

/-- C8: `infer_schema_from_df` maps every output entry to a column of the
input with its name upper-cased and its type chosen by first-match
precedence on the dtype string — integer-like → NUMBER, floating-point →
FLOAT, boolean → BOOLEAN, date/time → TIMESTAMP_NTZ, anything else →
TEXT — and returns the empty schema on the empty input. -/
theorem infer_schema_spec :
    infer_schema_from_df [] = [] ∧
    (∀ (df : DataFrame) (kv : String × String), kv ∈ infer_schema_from_df df →
      ∃ col, col ∈ df ∧ kv.1 = strUpper col.name ∧ kv.2 = classifyDtype col.dtype) ∧
    (∀ d : String,
      (containsSubstr d "int" = true → classifyDtype d = "NUMBER") ∧
      (containsSubstr d "int" = false → containsSubstr d "float" = true →
        classifyDtype d = "FLOAT") ∧
      (containsSubstr d "int" = false → containsSubstr d "float" = false →
        containsSubstr d "bool" = true → classifyDtype d = "BOOLEAN") ∧
      (containsSubstr d "int" = false → containsSubstr d "float" = false →
        containsSubstr d "bool" = false →
        (containsSubstr d "datetime" = true ∨ containsSubstr d "date" = true) →
        classifyDtype d = "TIMESTAMP_NTZ") ∧
      (containsSubstr d "int" = false → containsSubstr d "float" = false →
        containsSubstr d "bool" = false → containsSubstr d "datetime" = false →
        containsSubstr d "date" = false → classifyDtype d = "TEXT")) := by
  refine ⟨rfl, ?_, ?_⟩
  · intro df kv hm
    refine infer_foldl_shape
      (fun kv => ∃ col, col ∈ df ∧ kv.1 = strUpper col.name ∧ kv.2 = classifyDtype col.dtype)
      df [] (by simp) (fun col hc => ⟨col, hc, rfl, rfl⟩) kv hm
  · intro d
    refine ⟨fun h1 => ?_, fun h1 h2 => ?_, fun h1 h2 h3 => ?_,
      fun h1 h2 h3 h4 => ?_, fun h1 h2 h3 h4 h5 => ?_⟩
    · simp [classifyDtype, h1]
    · simp [classifyDtype, h1, h2]
    · simp [classifyDtype, h1, h2, h3]
    · rcases h4 with h4 | h4 <;> simp [classifyDtype, h1, h2, h3, h4]
    · simp [classifyDtype, h1, h2, h3, h4, h5]

/-- Witness for `infer_schema_spec` on a one-column integer DataFrame. -/
theorem infer_schema_spec_witness :
    (("ID", "NUMBER") ∈ infer_schema_from_df [⟨"id", "int64"⟩] ∧
      ∃ col, col ∈ [(⟨"id", "int64"⟩ : DFColumn)] ∧
        ("ID", "NUMBER").1 = strUpper col.name ∧
        ("ID", "NUMBER").2 = classifyDtype col.dtype) ∧
    (containsSubstr "int64" "int" = true ∧ classifyDtype "int64" = "NUMBER") :=
  ⟨⟨by decide, infer_schema_spec.2.1 [⟨"id", "int64"⟩] ("ID", "NUMBER") (by decide)⟩,
    ⟨by decide, (infer_schema_spec.2.2 "int64").1 (by decide)⟩⟩

/-- C9: with provider `"ollama"`, a failure of the local inference call
escapes `chat_llm` as a raised exception, contradicting the
always-returns-a-string contract; every other provider path converts all
failures to a returned string. -/
theorem chat_llm_ollama_raises :
    chat_llm ⟨"ollama", "", ""⟩ (fun _ => Except.error "ConnectionError: refused")
      (fun _ _ => Except.error "unreachable") "prompt" =
      Except.error "ConnectionError: refused" ∧
    (∀ (cfg : LLMConfig) (oll : String → Except String String)
      (post : String → String → Except String HttpResult) (prompt : String),
      cfg.provider ≠ "ollama" → ∃ s, chat_llm cfg oll post prompt = Except.ok s) := by
  refine ⟨rfl, ?_⟩
  intro cfg oll post prompt hne
  unfold chat_llm
  rw [if_neg (by simpa using hne)]
  by_cases hr : (cfg.provider == "remote") = true
  · rw [if_pos hr]
    by_cases hempty : (cfg.endpoint == "" || cfg.apiKey == "") = true
    · rw [if_pos hempty]
      exact ⟨_, rfl⟩
    · rw [if_neg hempty]
      rcases hpost : post cfg.endpoint prompt with e | resp
      · exact ⟨_, rfl⟩
      · simp only []
        by_cases hst : (resp.statusCode != 200) = true
        · rw [if_pos hst]
          exact ⟨_, rfl⟩
        · rw [if_neg hst]
          rcases hjson : resp.json with e | jd
          · exact ⟨_, rfl⟩
          · rcases jd with ⟨elems, r⟩ | r
            · rcases elems with _ | ⟨d0, drest⟩
              · exact ⟨_, rfl⟩
              · simp only []
                rcases hlk : lookup d0 "generated_text" with _ | txt
                · exact ⟨_, rfl⟩
                · exact ⟨_, rfl⟩
            · exact ⟨_, rfl⟩
  · rw [if_neg hr]
    exact ⟨_, rfl⟩

/-- Witness for `chat_llm_ollama_raises` at a non-ollama provider. -/
theorem chat_llm_total_witness :
    ("misconfigured" : String) ≠ "ollama" ∧
    ∃ s, chat_llm ⟨"misconfigured", "", ""⟩ (fun _ => Except.ok "")
      (fun _ _ => Except.error "e") "p" = Except.ok s :=
  ⟨by decide, chat_llm_ollama_raises.2 ⟨"misconfigured", "", ""⟩ (fun _ => Except.ok "")
    (fun _ _ => Except.error "e") "p" (by decide)⟩

/-- Witness for `compare_schemas_partition`: at a conflicted column the
hypothesis holds and exactly the Conflicted class is chosen. -/
theorem compare_schemas_partition_witness :
    ("A" ∈ keysOf (normalize [("A", "TEXT"), ("C", "FLOAT")]) ∨
      "A" ∈ keysOf (normalize [("A", "NUMBER")])) ∧
    exactlyOne4
      ("A" ∈ keysOf (compare_schemas [("A", "TEXT"), ("C", "FLOAT")] [("A", "NUMBER")]).1)
      ("A" ∈ keysOf (compare_schemas [("A", "TEXT"), ("C", "FLOAT")] [("A", "NUMBER")]).2.1)
      ("A" ∈ ((compare_schemas [("A", "TEXT"), ("C", "FLOAT")] [("A", "NUMBER")]).2.2.map
        Prod.fst))
      ("A" ∈ keysOf (normalize [("A", "TEXT"), ("C", "FLOAT")]) ∧
        "A" ∈ keysOf (normalize [("A", "NUMBER")]) ∧
        lookup (normalize [("A", "TEXT"), ("C", "FLOAT")]) "A" =
          lookup (normalize [("A", "NUMBER")]) "A") :=
  ⟨by decide, (compare_schemas_partition [("A", "TEXT"), ("C", "FLOAT")] [("A", "NUMBER")]
    "A").2.2.2 (by decide)⟩

/-- Witness for `explain_empty_diff_static` is above; witness for
`generate_sql_never_empty` at a concrete empty diff. -/
theorem generate_sql_never_empty_witness :
    compare_schemas [("A", "TEXT")] [("a", "TEXT")] = ([], [], []) ∧
    generate_sql_with_ai [("A", "TEXT")] [("a", "TEXT")] "T" = noChangesSql ∧
    generate_sql_with_ai [("A", "TEXT")] [("a", "TEXT")] "T" ≠ "" :=
  ⟨by decide,
    generate_sql_never_empty.1 [("A", "TEXT")] [("a", "TEXT")] "T" (by decide),
    generate_sql_never_empty.2.2 [("A", "TEXT")] [("a", "TEXT")] "T"⟩

end SnowflakeEvo
